import Mathlib

/-!
Verification of the papyrus-compiler statement parser.

The development embeds, as executable Lean definitions, the keyword model of
src/lexer/src/syntax/keyword_kind.rs and the statement grammar of
src/parser/src/ast/statement.rs.  The parser engine (cursor, expect/optional
combinators, span wrapping), the expression grammar, and the type grammar are
external collaborators of the statement grammar whose sources are not part of
the embedded core; those are modelled from the specification and carry a
doc comment saying so.

The embedding represents the token cursor as an explicit position (a natural
number index into an immutable token list) threaded through every parsing
function, so a failing attempt automatically leaves the caller's position
untouched, exactly like the O(1) integer-cursor rollback of the engine.
Spans are modelled as token-index ranges rather than byte ranges.  Recursion
is made structural through an explicit fuel parameter; the RecursionLimit
error is the embedding's image of the host-stack bound on recursion depth
described in the specification.
-/

namespace Papyrus

/-- Keyword model, embedded from src/lexer/src/syntax/keyword_kind.rs
(the 43 variants of the KeywordKind enum, in source order). -/
inductive KeywordKind where
  | Auto
  | AutoReadOnly
  | BetaOnly
  | Bool
  | Const
  | CustomEvent
  | CustomEventName
  | DebugOnly
  | Else
  | ElseIf
  | EndEvent
  | EndFunction
  | EndGroup
  | EndIf
  | EndProperty
  | EndState
  | EndStruct
  | EndWhile
  | Event
  | Extends
  | False
  | Float
  | Function
  | Global
  | Group
  | If
  | Import
  | Int
  | Length
  | Native
  | New
  | None
  | Property
  | Return
  | ScriptName
  | ScriptEventName
  | State
  | String
  | Struct
  | StructVarName
  | True
  | Var
  | While
  deriving DecidableEq

/-- Modelled from the spec: the operator lexemes the statement grammar
consumes.  The lexer's operator_kind module is an external collaborator; the
spec names the six assignment operators resolved by AssignmentKind parsing,
and the parentheses are used by the expression collaborator. -/
inductive OperatorKind where
  | Assignment
  | AdditionAssignment
  | SubtractionAssignment
  | MultiplicationAssignment
  | DivisionAssignment
  | ModulusAssignment
  | ParenthesisOpen
  | ParenthesisClose
  deriving DecidableEq

/-- Modelled from the spec: a token is a tagged value (Keyword, Operator,
Identifier, Literal) produced by the external tokenizer.  Byte spans are kept
by the token sequence in the source; here a token's position in the sequence
plays that role. -/
inductive Token where
  | Keyword (k : KeywordKind)
  | Operator (o : OperatorKind)
  | Identifier (s : String)
  | IntegerLiteral (n : Int)
  deriving DecidableEq

/-- Modelled from the spec: the parser error taxonomy of section 7
(ExpectedTokenMismatch, NoAlternativeMatched, UnexpectedEndOfInput).
RecursionLimit is the embedding's fuel-exhaustion marker standing for the
host-stack bound on recursion depth. -/
inductive ParserError where
  | ExpectedToken (expected : Token) (found : Token) (pos : Nat)
  | ExpectedTokenKind (description : String) (found : Token) (pos : Nat)
  | UnexpectedEndOfInput (pos : Nat)
  | NoAlternativeMatched (errors : List ParserError)
  | RecursionLimit

/-- Span node wrapper, embedded from the Node type of the parser: a parsed
value paired with the range it was parsed from (token-index range in this
embedding). -/
structure Node (α : Type) where
  value : α
  span_start : Nat
  span_end : Nat
  deriving DecidableEq

/-- Result of a parsing step: either a value together with the new cursor
position, or a propagating parser error. -/
abbrev ParserResult (α : Type) : Type := Except ParserError (α × Nat)

/-- Modelled from the spec: peek_token returns the current token without
consuming it. -/
def peek_token (ts : List Token) (p : Nat) : Option Token := ts[p]?

/-- Modelled from the spec: expect_token consumes the current token iff it
equals the wanted token; on mismatch it fails and the caller's cursor is
untouched. -/
def expect_token (ts : List Token) (p : Nat) (t : Token) : ParserResult Unit :=
  match ts[p]? with
  | some found =>
      if found = t then .ok ((), p + 1)
      else .error (.ExpectedToken t found p)
  | none => .error (.UnexpectedEndOfInput p)

/-- Modelled from the spec: expect_keyword consumes the current token iff it
is the given keyword. -/
def expect_keyword (ts : List Token) (p : Nat) (k : KeywordKind) : ParserResult Unit :=
  expect_token ts p (.Keyword k)

/-- Modelled from the spec: expect_operator consumes the current token iff it
is the given operator. -/
def expect_operator (ts : List Token) (p : Nat) (o : OperatorKind) : ParserResult Unit :=
  expect_token ts p (.Operator o)

/-- Modelled from the spec: parse_node runs a parse routine and wraps its
result together with the exact consumed range in a Node. -/
def parse_node {α : Type} (f : List Token → Nat → ParserResult α)
    (ts : List Token) (p : Nat) : ParserResult (Node α) :=
  match f ts p with
  | .error e => .error e
  | .ok (v, p1) => .ok (⟨v, p, p1⟩, p1)

/-- Modelled from the spec: with_node captures the span from entry to exit
position of a parse routine and wraps the result, like parse_node. -/
def with_node {α : Type} (f : List Token → Nat → ParserResult α)
    (ts : List Token) (p : Nat) : ParserResult (Node α) :=
  parse_node f ts p

/-- Modelled from the spec: parse_node_optional attempts parse_node and on
failure rewinds the cursor and yields absence instead of propagating. -/
def parse_node_optional {α : Type} (f : List Token → Nat → ParserResult α)
    (ts : List Token) (p : Nat) : Option (Node α) × Nat :=
  match parse_node f ts p with
  | .ok (n, p1) => (some n, p1)
  | .error _ => (none, p)

/-- Modelled from the spec: optional executes a closure and on failure
rewinds the cursor and yields absence. -/
def optional {α : Type} (f : List Token → Nat → ParserResult α)
    (ts : List Token) (p : Nat) : Option α × Nat :=
  match f ts p with
  | .ok (v, p1) => (some v, p1)
  | .error _ => (none, p)

/-- Modelled from the spec: the literal shapes the statement-level examples
need from the expression collaborator (boolean and integer literals). -/
inductive Literal where
  | Boolean (b : Bool)
  | Integer (n : Int)
  deriving DecidableEq

/-- Modelled from the spec: the expression grammar is an external
collaborator assumed correct; its internal productions are out of scope.
Only the shapes consumed by the statement grammar's examples are modelled:
literals and identifiers. -/
inductive Expression where
  | Literal (l : Literal)
  | Identifier (name : String)
  deriving DecidableEq

/-- Modelled from the spec: atomic expression forms (boolean literals are the
True/False keywords of the token model, integer literals, identifiers). -/
def parse_primary_expression (ts : List Token) (p : Nat) : ParserResult Expression :=
  match ts[p]? with
  | some (.Keyword .True) => .ok (.Literal (.Boolean true), p + 1)
  | some (.Keyword .False) => .ok (.Literal (.Boolean false), p + 1)
  | some (.IntegerLiteral n) => .ok (.Literal (.Integer n), p + 1)
  | some (.Identifier s) => .ok (.Identifier s, p + 1)
  | some t => .error (.ExpectedTokenKind "expression" t p)
  | none => .error (.UnexpectedEndOfInput p)

/-- Modelled from the spec: expression parsing as the statement grammar
consumes it — a primary expression, optionally wrapped in one pair of
parentheses (the condition form used by the literal examples). -/
def parse_expression (ts : List Token) (p : Nat) : ParserResult Expression :=
  match ts[p]? with
  | some (.Operator .ParenthesisOpen) =>
      match parse_primary_expression ts (p + 1) with
      | .error e => .error e
      | .ok (e, p1) =>
          match expect_operator ts p1 .ParenthesisClose with
          | .error e => .error e
          | .ok (_, p2) => .ok (e, p2)
  | _ => parse_primary_expression ts p

/-- Modelled from the spec: identifier parsing (an external collaborator of
the statement grammar). -/
def parse_identifier (ts : List Token) (p : Nat) : ParserResult String :=
  match ts[p]? with
  | some (.Identifier s) => .ok (s, p + 1)
  | some t => .error (.ExpectedTokenKind "identifier" t p)
  | none => .error (.UnexpectedEndOfInput p)

/-- Modelled from the spec: the base type names of the keyword model. -/
inductive BaseType where
  | Bool
  | Int
  | Float
  | String
  | Var
  deriving DecidableEq

/-- Modelled from the spec: a type name is a base type keyword or a custom
(script) type named by an identifier. -/
inductive TypeName where
  | BaseType (b : BaseType)
  | RawType (s : String)
  deriving DecidableEq

/-- Modelled from the spec: the type collaborator's value, a named type
(array types are out of scope of the statement-level examples). -/
structure PapyrusType where
  name : Node TypeName
  is_array : Bool
  deriving DecidableEq

/-- Modelled from the spec: parsing a type name token. -/
def parse_type_name (ts : List Token) (p : Nat) : ParserResult TypeName :=
  match ts[p]? with
  | some (.Keyword .Bool) => .ok (.BaseType .Bool, p + 1)
  | some (.Keyword .Int) => .ok (.BaseType .Int, p + 1)
  | some (.Keyword .Float) => .ok (.BaseType .Float, p + 1)
  | some (.Keyword .String) => .ok (.BaseType .String, p + 1)
  | some (.Keyword .Var) => .ok (.BaseType .Var, p + 1)
  | some (.Identifier s) => .ok (.RawType s, p + 1)
  | some t => .error (.ExpectedTokenKind "type name" t p)
  | none => .error (.UnexpectedEndOfInput p)

/-- Modelled from the spec: the type grammar collaborator used by the
variable-definition production (named type_with_identifier in the
source) — a type name followed by an identifier, both span-wrapped. -/
def type_with_identifier (ts : List Token) (p : Nat) :
    ParserResult (Node PapyrusType × Node String) :=
  match parse_type_name ts p with
  | .error e => .error e
  | .ok (tn, p1) =>
      match parse_identifier ts p1 with
      | .error e => .error e
      | .ok (nm, p2) => .ok ((⟨⟨⟨tn, p, p1⟩, false⟩, p, p1⟩, ⟨nm, p1, p2⟩), p2)

/-- AssignmentKind, embedded from src/parser/src/ast/statement.rs lines
55-69: the closed enum of the six assignment operators. -/
inductive AssignmentKind where
  | Normal
  | Addition
  | Subtraction
  | Multiplication
  | Division
  | Modulus
  deriving DecidableEq

/-- AssignmentKind parsing, embedded from src/parser/src/ast/statement.rs
lines 71-94: an ordered choice over the six operator tokens, aggregating all
six failures when none matches. -/
def AssignmentKind.parse (ts : List Token) (p : Nat) : ParserResult AssignmentKind :=
  match expect_operator ts p .Assignment with
  | .ok (_, p1) => .ok (.Normal, p1)
  | .error e1 =>
  match expect_operator ts p .AdditionAssignment with
  | .ok (_, p1) => .ok (.Addition, p1)
  | .error e2 =>
  match expect_operator ts p .SubtractionAssignment with
  | .ok (_, p1) => .ok (.Subtraction, p1)
  | .error e3 =>
  match expect_operator ts p .MultiplicationAssignment with
  | .ok (_, p1) => .ok (.Multiplication, p1)
  | .error e4 =>
  match expect_operator ts p .DivisionAssignment with
  | .ok (_, p1) => .ok (.Division, p1)
  | .error e5 =>
  match expect_operator ts p .ModulusAssignment with
  | .ok (_, p1) => .ok (.Modulus, p1)
  | .error e6 => .error (.NoAlternativeMatched [e1, e2, e3, e4, e5, e6])

mutual

/-- Statement AST, embedded from src/parser/src/ast/statement.rs lines 12-35:
the recursive tagged union of the six statement shapes. -/
inductive Statement where
  | VariableDefinition (type_node : Node PapyrusType) (name : Node String)
      (initial_value : Option (Node Expression))
  | Return (e : Option (Node Expression))
  | Assignment (lhs : Node Expression) (kind : Node AssignmentKind) (rhs : Node Expression)
  | If (if_path : Node ConditionalPath)
      (other_paths : Option (List (Node ConditionalPath)))
      (else_path : Option (List (Node Statement)))
  | While (path : Node ConditionalPath)
  | Expression (e : Node Expression)

/-- ConditionalPath, embedded from src/parser/src/ast/statement.rs lines
37-41: a condition expression plus an optional statement body. -/
inductive ConditionalPath where
  | mk (condition : Node Expression) (statements : Option (List (Node Statement)))

end

/-- Condition of a ConditionalPath (field accessor). -/
def ConditionalPath.condition : ConditionalPath → Node Expression
  | .mk c _ => c

/-- Statement body of a ConditionalPath (field accessor). -/
def ConditionalPath.statements : ConditionalPath → Option (List (Node Statement))
  | .mk _ s => s

/-- Return-statement production, embedded from src/parser/src/ast/statement.rs
lines 145-152: keyword Return, then an optional expression. -/
def parse_return_statement (ts : List Token) (p : Nat) : ParserResult Statement :=
  match expect_keyword ts p .Return with
  | .error e => .error e
  | .ok (_, p1) =>
      let (e, p2) := parse_node_optional parse_expression ts p1
      .ok (.Return e, p2)

/-- Initializer group of the variable-definition production, embedded from
the closure at src/parser/src/ast/statement.rs lines 161-164: the Assignment
operator followed by an expression. -/
def define_initial_value (ts : List Token) (p : Nat) : ParserResult (Node Expression) :=
  match expect_operator ts p .Assignment with
  | .error e => .error e
  | .ok (_, p1) => parse_node parse_expression ts p1

/-- Variable-definition production, embedded from
src/parser/src/ast/statement.rs lines 157-171: a type with identifier, then
an optional initializer group consumed through the optional combinator. -/
def parse_define_statement (ts : List Token) (p : Nat) : ParserResult Statement :=
  match type_with_identifier ts p with
  | .error e => .error e
  | .ok ((type_node, name), p1) =>
      let (initial_value, p2) := optional define_initial_value ts p1
      .ok (.VariableDefinition type_node name initial_value, p2)

/-- Assignment production, embedded from src/parser/src/ast/statement.rs
lines 121-133: l-value expression, assignment kind, r-value expression. -/
def parse_assign_statement (ts : List Token) (p : Nat) : ParserResult Statement :=
  match parse_node parse_expression ts p with
  | .error e => .error e
  | .ok (l_value, p1) =>
  match parse_node AssignmentKind.parse ts p1 with
  | .error e => .error e
  | .ok (assignment_kind, p2) =>
  match parse_node parse_expression ts p2 with
  | .error e => .error e
  | .ok (r_value, p3) => .ok (.Assignment l_value assignment_kind r_value, p3)

/-- Bare-expression production, embedded from
src/parser/src/ast/statement.rs lines 135-140. -/
def parse_expression_statement (ts : List Token) (p : Nat) : ParserResult Statement :=
  match parse_node parse_expression ts p with
  | .error e => .error e
  | .ok (e, p1) => .ok (.Expression e, p1)

mutual

/-- Statement parsing, embedded from src/parser/src/ast/statement.rs lines
96-107: an ordered choice over the six productions Return, If, While,
VariableDefinition, Assignment, BareExpression, in that order, aggregating
all six failures when every production fails. -/
def Statement.parse : Nat → List Token → Nat → ParserResult Statement
  | 0, _, _ => .error .RecursionLimit
  | fuel + 1, ts, p =>
    match parse_return_statement ts p with
    | .ok r => .ok r
    | .error e1 =>
    match parse_if_statement fuel ts p with
    | .ok r => .ok r
    | .error e2 =>
    match parse_while_statement fuel ts p with
    | .ok r => .ok r
    | .error e3 =>
    match parse_define_statement ts p with
    | .ok r => .ok r
    | .error e4 =>
    match parse_assign_statement ts p with
    | .ok r => .ok r
    | .error e5 =>
    match parse_expression_statement ts p with
    | .ok r => .ok r
    | .error e6 => .error (.NoAlternativeMatched [e1, e2, e3, e4, e5, e6])
  termination_by structural fuel _ _ => fuel

/-- Statement loop of the conditional-path production, embedded from the loop
at src/parser/src/ast/statement.rs lines 182-192: stop, without consuming,
when the next token is EndIf, EndWhile, ElseIf or Else; otherwise parse one
span-wrapped statement and continue. -/
def parse_conditional_path_statements :
    Nat → List Token → Nat → List (Node Statement) → ParserResult (List (Node Statement))
  | 0, _, _, _ => .error .RecursionLimit
  | fuel + 1, ts, p, acc =>
    match peek_token ts p with
    | some (.Keyword .EndIf) => .ok (acc, p)
    | some (.Keyword .EndWhile) => .ok (acc, p)
    | some (.Keyword .ElseIf) => .ok (acc, p)
    | some (.Keyword .Else) => .ok (acc, p)
    | _ =>
      match parse_node (Statement.parse fuel) ts p with
      | .error e => .error e
      | .ok (n, p1) => parse_conditional_path_statements fuel ts p1 (acc ++ [n])
  termination_by structural fuel _ _ _ => fuel

/-- Conditional-path production, embedded from
src/parser/src/ast/statement.rs lines 176-206: a condition expression, then
the statement loop, with an empty body canonicalised to absence. -/
def parse_conditional_path : Nat → List Token → Nat → ParserResult ConditionalPath
  | 0, _, _ => .error .RecursionLimit
  | fuel + 1, ts, p =>
    match parse_node parse_expression ts p with
    | .error e => .error e
    | .ok (condition, p1) =>
      match parse_conditional_path_statements fuel ts p1 [] with
      | .error e => .error e
      | .ok (statements, p2) =>
          .ok (⟨condition, if statements.isEmpty then none else some statements⟩, p2)
  termination_by structural fuel _ _ => fuel

/-- Statement collection of the engine, modelled from the spec:
repeatedly parse span-wrapped statements until the next token is the given
keyword or input is exhausted (helper of
optional_parse_node_until_keyword). -/
def parse_node_until_keyword :
    Nat → List Token → Nat → KeywordKind → List (Node Statement) → ParserResult (List (Node Statement))
  | 0, _, _, _, _ => .error .RecursionLimit
  | fuel + 1, ts, p, k, acc =>
    match peek_token ts p with
    | none => .ok (acc, p)
    | some t =>
      if t = .Keyword k then .ok (acc, p)
      else
        match parse_node (Statement.parse fuel) ts p with
        | .error e => .error e
        | .ok (n, p1) => parse_node_until_keyword fuel ts p1 k (acc ++ [n])
  termination_by structural fuel _ _ _ _ => fuel

/-- Engine combinator modelled from the spec: parse statements until the
given keyword or end of input, returning absence when zero statements were
parsed (used for Else bodies). -/
def optional_parse_node_until_keyword :
    Nat → List Token → Nat → KeywordKind → ParserResult (Option (List (Node Statement)))
  | 0, _, _, _ => .error .RecursionLimit
  | fuel + 1, ts, p, k =>
    match parse_node_until_keyword fuel ts p k [] with
    | .error e => .error e
    | .ok (stmts, p1) => .ok (if stmts.isEmpty then none else some stmts, p1)
  termination_by structural fuel _ _ _ => fuel

/-- ElseIf/Else loop of the if-statement state machine, embedded from the
while loop at src/parser/src/ast/statement.rs lines 224-238: while the next
token is not EndIf — on ElseIf, consume it and append another conditional
path; on Else, consume it, collect the else body until EndIf and stop; on
anything else stop. -/
def parse_if_chain :
    Nat → List Token → Nat → List (Node ConditionalPath) →
    ParserResult (List (Node ConditionalPath) × Option (List (Node Statement)))
  | 0, _, _, _ => .error .RecursionLimit
  | fuel + 1, ts, p, other_paths =>
    if peek_token ts p = some (.Keyword .EndIf) then .ok ((other_paths, none), p)
    else
      match peek_token ts p with
      | some (.Keyword .ElseIf) =>
          match expect_keyword ts p .ElseIf with
          | .error e => .error e
          | .ok (_, p1) =>
            match with_node (parse_conditional_path fuel) ts p1 with
            | .error e => .error e
            | .ok (path, p2) => parse_if_chain fuel ts p2 (other_paths ++ [path])
      | some (.Keyword .Else) =>
          match expect_keyword ts p .Else with
          | .error e => .error e
          | .ok (_, p1) =>
            match optional_parse_node_until_keyword fuel ts p1 .EndIf with
            | .error e => .error e
            | .ok (else_path, p2) => .ok ((other_paths, else_path), p2)
      | _ => .ok ((other_paths, none), p)
  termination_by structural fuel _ _ _ => fuel

/-- If-statement production, embedded from src/parser/src/ast/statement.rs
lines 214-255: keyword If, the if path, the ElseIf/Else loop, then the
mandatory EndIf, with an empty ElseIf list canonicalised to absence. -/
def parse_if_statement : Nat → List Token → Nat → ParserResult Statement
  | 0, _, _ => .error .RecursionLimit
  | fuel + 1, ts, p =>
    match expect_keyword ts p .If with
    | .error e => .error e
    | .ok (_, p1) =>
    match with_node (parse_conditional_path fuel) ts p1 with
    | .error e => .error e
    | .ok (if_path, p2) =>
    match parse_if_chain fuel ts p2 [] with
    | .error e => .error e
    | .ok (chain, p3) =>
    match expect_keyword ts p3 .EndIf with
    | .error e => .error e
    | .ok (_, p4) =>
        .ok (.If if_path (if chain.1.isEmpty then none else some chain.1) chain.2, p4)
  termination_by structural fuel _ _ => fuel

/-- While-statement production, embedded from
src/parser/src/ast/statement.rs lines 261-269: keyword While, one
conditional path, keyword EndWhile. -/
def parse_while_statement : Nat → List Token → Nat → ParserResult Statement
  | 0, _, _ => .error .RecursionLimit
  | fuel + 1, ts, p =>
    match expect_keyword ts p .While with
    | .error e => .error e
    | .ok (_, p1) =>
    match with_node (parse_conditional_path fuel) ts p1 with
    | .error e => .error e
    | .ok (conditional_path, p2) =>
    match expect_keyword ts p2 .EndWhile with
    | .error e => .error e
    | .ok (_, p3) => .ok (.While conditional_path, p3)
  termination_by structural fuel _ _ => fuel

end

/-- Operator token corresponding to each AssignmentKind variant, following
the one-to-one correspondence of the doc comments at
src/parser/src/ast/statement.rs lines 55-69. -/
def AssignmentKind.operator : AssignmentKind → OperatorKind
  | .Normal => .Assignment
  | .Addition => .AdditionAssignment
  | .Subtraction => .SubtractionAssignment
  | .Multiplication => .MultiplicationAssignment
  | .Division => .DivisionAssignment
  | .Modulus => .ModulusAssignment

/-- Keyword lexemes of the model, in the order the specification lists them
in its keyword-model section. -/
def spec_keyword_list : List KeywordKind :=
  [.If, .ElseIf, .Else, .EndIf, .While, .EndWhile, .Return, .Function, .EndFunction,
   .Event, .EndEvent, .Property, .EndProperty, .Struct, .EndStruct, .State, .EndState,
   .Group, .EndGroup, .Global, .Native, .Auto, .AutoReadOnly, .BetaOnly, .DebugOnly,
   .Const, .New, .Extends, .Import, .ScriptName, .ScriptEventName, .CustomEvent,
   .CustomEventName, .StructVarName, .Length, .Bool, .Int, .Float, .String, .Var,
   .None, .True, .False]

/-- Keywords at which the statement loop of a conditional path stops. -/
def conditional_path_terminators : List KeywordKind :=
  [.EndIf, .EndWhile, .ElseIf, .Else]

mutual

/-- Whether an error is an end-of-input error: either directly an
UnexpectedEndOfInput, or an aggregate whose branches all ran into the end of
the input. -/
def ParserError.isEndOfInput : ParserError → Bool
  | .UnexpectedEndOfInput _ => true
  | .NoAlternativeMatched es => ParserError.allEndOfInput es
  | _ => false

/-- Whether every error of a list is an end-of-input error. -/
def ParserError.allEndOfInput : List ParserError → Bool
  | [] => true
  | e :: es => e.isEndOfInput && ParserError.allEndOfInput es

end

mutual

/-- Canonical-empty invariant on statements: in an If node, other_paths and
else_path are never a present empty sequence, recursively through the whole
tree; conditional paths hanging off If and While nodes satisfy the matching
invariant. -/
inductive CanonicalStatement : Statement → Prop where
  | variableDefinition (t : Node PapyrusType) (n : Node String) (i : Option (Node Expression)) :
      CanonicalStatement (.VariableDefinition t n i)
  | ret (e : Option (Node Expression)) : CanonicalStatement (.Return e)
  | assignment (l : Node Expression) (k : Node AssignmentKind) (r : Node Expression) :
      CanonicalStatement (.Assignment l k r)
  | ifStatement (ip : Node ConditionalPath) (op : Option (List (Node ConditionalPath)))
      (ep : Option (List (Node Statement)))
      (hip : CanonicalPath ip.value)
      (hop : op ≠ some [])
      (hep : ep ≠ some [])
      (hops : ∀ l, op = some l → ∀ x ∈ l, CanonicalPath x.value)
      (heps : ∀ l, ep = some l → ∀ x ∈ l, CanonicalStatement x.value) :
      CanonicalStatement (.If ip op ep)
  | whileStatement (cp : Node ConditionalPath) (h : CanonicalPath cp.value) :
      CanonicalStatement (.While cp)
  | expression (e : Node Expression) : CanonicalStatement (.Expression e)

/-- Canonical-empty invariant on conditional paths: a body with zero
statements is represented as absent, never as a present empty sequence,
recursively through the whole tree. -/
inductive CanonicalPath : ConditionalPath → Prop where
  | mk (c : Node Expression) (stmts : Option (List (Node Statement)))
      (h : stmts ≠ some [])
      (hs : ∀ l, stmts = some l → ∀ x ∈ l, CanonicalStatement x.value) :
      CanonicalPath ⟨c, stmts⟩

end

/-- Token stream of the source text "int x = 1". -/
def toks_int_x : List Token :=
  [.Keyword .Int, .Identifier "x", .Operator .Assignment, .IntegerLiteral 1]

/-- Token stream of the source text "x = 1". -/
def toks_x_eq_1 : List Token :=
  [.Identifier "x", .Operator .Assignment, .IntegerLiteral 1]

/-- Token stream of the source text
"If (true) ElseIf (true) ElseIf (false) Else EndIf". -/
def toks_if_chain : List Token :=
  [.Keyword .If, .Operator .ParenthesisOpen, .Keyword .True, .Operator .ParenthesisClose,
   .Keyword .ElseIf, .Operator .ParenthesisOpen, .Keyword .True, .Operator .ParenthesisClose,
   .Keyword .ElseIf, .Operator .ParenthesisOpen, .Keyword .False, .Operator .ParenthesisClose,
   .Keyword .Else, .Keyword .EndIf]

/-- Token stream of the source text "If (true) Else ElseIf (true) EndIf"
(an Else branch followed by a further ElseIf). -/
def toks_else_then_elseif : List Token :=
  [.Keyword .If, .Operator .ParenthesisOpen, .Keyword .True, .Operator .ParenthesisClose,
   .Keyword .Else,
   .Keyword .ElseIf, .Operator .ParenthesisOpen, .Keyword .True, .Operator .ParenthesisClose,
   .Keyword .EndIf]

/-- Token stream of the source text "If (true)" (no terminating EndIf). -/
def toks_if_noend : List Token :=
  [.Keyword .If, .Operator .ParenthesisOpen, .Keyword .True, .Operator .ParenthesisClose]

/-- Token stream of the source text "If (true) EndIf". -/
def toks_if_endif : List Token :=
  [.Keyword .If, .Operator .ParenthesisOpen, .Keyword .True, .Operator .ParenthesisClose,
   .Keyword .EndIf]

/-- Token stream of the source text "While (true) EndIf" (a While body
terminated by the wrong keyword). -/
def toks_while_endif : List Token :=
  [.Keyword .While, .Operator .ParenthesisOpen, .Keyword .True, .Operator .ParenthesisClose,
   .Keyword .EndIf]

/-- Token stream of the source text "While (true) EndWhile". -/
def toks_while_endwhile : List Token :=
  [.Keyword .While, .Operator .ParenthesisOpen, .Keyword .True, .Operator .ParenthesisClose,
   .Keyword .EndWhile]

/-- Token stream of the source text "int x =" (an initializer group whose
Assignment operator is present but followed by no expression). -/
def toks_int_x_dangling : List Token :=
  [.Keyword .Int, .Identifier "x", .Operator .Assignment]

/-- Successful expect_token means the current token was the wanted one and
exactly one token was consumed. -/
theorem expect_token_ok {ts : List Token} {p : Nat} {t : Token} {u : Unit} {p' : Nat}
    (h : expect_token ts p t = .ok (u, p')) : ts[p]? = some t ∧ p' = p + 1 := by
  unfold expect_token at h
  split at h
  · split at h
    · rename_i found hfound heq
      cases h
      exact ⟨by rw [hfound, heq], rfl⟩
    · cases h
  · cases h

/-- Successful expect_keyword means the current token was the wanted keyword
and exactly one token was consumed. -/
theorem expect_keyword_ok {ts : List Token} {p : Nat} {k : KeywordKind} {u : Unit} {p' : Nat}
    (h : expect_keyword ts p k = .ok (u, p')) :
    ts[p]? = some (.Keyword k) ∧ p' = p + 1 :=
  expect_token_ok h

/-- C1: Statement parsing is an ordered choice over the six productions
Return, If, While, VariableDefinition, Assignment, BareExpression in that
fixed priority order: the token stream of "int x = 1" parses as a
VariableDefinition (so never as an Assignment), the token stream of "x = 1"
parses as an Assignment, and the latter result — value and final cursor —
coincides exactly with what the Assignment production alone produces, so the
earlier failed VariableDefinition attempt leaves no residual effect on the
cursor or the result. -/
theorem statement_ordered_choice_disambiguation :
    Statement.parse 50 toks_int_x 0 =
      .ok (.VariableDefinition ⟨⟨⟨.BaseType .Int, 0, 1⟩, false⟩, 0, 1⟩ ⟨"x", 1, 2⟩
        (some ⟨.Literal (.Integer 1), 3, 4⟩), 4)
    ∧ Statement.parse 50 toks_x_eq_1 0 =
      .ok (.Assignment ⟨.Identifier "x", 0, 1⟩ ⟨.Normal, 1, 2⟩ ⟨.Literal (.Integer 1), 2, 3⟩, 3)
    ∧ Statement.parse 50 toks_x_eq_1 0 = parse_assign_statement toks_x_eq_1 0 :=
  ⟨rfl, rfl, rfl⟩

/-- C2: the token stream of
"If (true) ElseIf (true) ElseIf (false) Else EndIf" parses as an If whose
if_path has no body, whose other_paths holds exactly the two ElseIf
conditional paths in source order, and whose else_path is absent; and an
Else branch followed by a further ElseIf makes the whole statement parse
fail. -/
theorem if_chain_shape :
    Statement.parse 50 toks_if_chain 0 =
      .ok (.If ⟨⟨⟨.Literal (.Boolean true), 1, 4⟩, none⟩, 1, 4⟩
        (some [⟨⟨⟨.Literal (.Boolean true), 5, 8⟩, none⟩, 5, 8⟩,
               ⟨⟨⟨.Literal (.Boolean false), 9, 12⟩, none⟩, 9, 12⟩])
        none, 14)
    ∧ ∃ e, Statement.parse 50 toks_else_then_elseif 0 = .error e :=
  ⟨rfl, _, rfl⟩

/-- C7: the keyword model is a fixed, closed set of exactly the 43 keyword
lexemes the specification enumerates: the spec's list has 43 pairwise
distinct entries and every keyword of the model occurs in it. -/
theorem keyword_model_closed :
    spec_keyword_list.length = 43 ∧ spec_keyword_list.Nodup ∧
      ∀ k : KeywordKind, k ∈ spec_keyword_list := by
  refine ⟨rfl, by decide, fun k => ?_⟩
  cases k <;> decide

/-- C5: AssignmentKind parsing maps the six operator tokens one-to-one onto
the six variants: a parse succeeds with kind k and final position p-plus-one
exactly when the current token is the operator corresponding to k under the
Normal, Addition, Subtraction, Multiplication, Division, Modulus
correspondence — so each operator maps to its variant and to no other. -/
theorem assignment_kind_round_trip :
    ∀ (ts : List Token) (p : Nat) (k : AssignmentKind) (p' : Nat),
      AssignmentKind.parse ts p = .ok (k, p') ↔
        ts[p]? = some (.Operator k.operator) ∧ p' = p + 1 := by
  intro ts p k p'
  cases hts : ts[p]? with
  | none =>
      cases k <;>
        simp [AssignmentKind.parse, expect_operator, expect_token, hts, AssignmentKind.operator]
  | some t =>
      cases t with
      | Operator o =>
          cases o <;> cases k <;>
            simp [AssignmentKind.parse, expect_operator, expect_token, hts,
              AssignmentKind.operator, eq_comm]
      | Keyword kw =>
          cases k <;>
            simp [AssignmentKind.parse, expect_operator, expect_token, hts, AssignmentKind.operator]
      | Identifier s =>
          cases k <;>
            simp [AssignmentKind.parse, expect_operator, expect_token, hts, AssignmentKind.operator]
      | IntegerLiteral n =>
          cases k <;>
            simp [AssignmentKind.parse, expect_operator, expect_token, hts, AssignmentKind.operator]

/-- C8: the optional initializer group of the variable-definition production
is consumed atomically: whenever the type and identifier parse successfully
and the initializer group (the Assignment operator followed by an
expression) fails — including when the operator is present but no valid
expression follows — parse_define_statement still succeeds with
initial_value absent and its final cursor is the position right after the
identifier, so the Assignment operator token remains unconsumed. -/
theorem define_initializer_atomic :
    ∀ (ts : List Token) (p : Nat) (tn : Node PapyrusType) (nm : Node String) (p1 : Nat)
      (e : ParserError),
      type_with_identifier ts p = .ok ((tn, nm), p1) →
      define_initial_value ts p1 = .error e →
      parse_define_statement ts p = .ok (.VariableDefinition tn nm none, p1) := by
  intro ts p tn nm p1 e h1 h2
  simp [parse_define_statement, h1, optional, h2]

/-- Witness for C8 at the token stream of "int x =" (operator present, no
expression after it). -/
theorem define_initializer_atomic_witness :
    parse_define_statement toks_int_x_dangling 0 =
      .ok (.VariableDefinition ⟨⟨⟨.BaseType .Int, 0, 1⟩, false⟩, 0, 1⟩ ⟨"x", 1, 2⟩ none, 2) :=
  define_initializer_atomic toks_int_x_dangling 0 _ _ 2 (.UnexpectedEndOfInput 3) rfl rfl

/-- C9: when the cursor is at or past the end of the token stream, Statement
parsing fails with an error for every fuel value — each of the six
productions needs at least one token before it can succeed. -/
theorem statement_parse_fails_at_eof :
    ∀ (fuel : Nat) (ts : List Token) (p : Nat), ts.length ≤ p →
      ∃ e, Statement.parse fuel ts p = .error e := by
  intro fuel ts p hlen
  have hnone : ts[p]? = none := by
    exact List.getElem?_eq_none hlen
  cases fuel with
  | zero => exact ⟨.RecursionLimit, rfl⟩
  | succ n =>
      have h1 : parse_return_statement ts p = .error (.UnexpectedEndOfInput p) := by
        simp [parse_return_statement, expect_keyword, expect_token, hnone]
      have h2 : ∃ e, parse_if_statement n ts p = .error e := by
        cases n with
        | zero => exact ⟨.RecursionLimit, rfl⟩
        | succ m =>
            exact ⟨.UnexpectedEndOfInput p, by
              simp [parse_if_statement, expect_keyword, expect_token, hnone]⟩
      have h3 : ∃ e, parse_while_statement n ts p = .error e := by
        cases n with
        | zero => exact ⟨.RecursionLimit, rfl⟩
        | succ m =>
            exact ⟨.UnexpectedEndOfInput p, by
              simp [parse_while_statement, expect_keyword, expect_token, hnone]⟩
      obtain ⟨e2, h2⟩ := h2
      obtain ⟨e3, h3⟩ := h3
      have h4 : parse_define_statement ts p = .error (.UnexpectedEndOfInput p) := by
        simp [parse_define_statement, type_with_identifier, parse_type_name, hnone]
      have h5 : parse_assign_statement ts p = .error (.UnexpectedEndOfInput p) := by
        simp [parse_assign_statement, parse_node, parse_expression, parse_primary_expression, hnone]
      have h6 : parse_expression_statement ts p = .error (.UnexpectedEndOfInput p) := by
        simp [parse_expression_statement, parse_node, parse_expression, parse_primary_expression,
          hnone]
      refine ⟨.NoAlternativeMatched [.UnexpectedEndOfInput p, e2, e3, .UnexpectedEndOfInput p,
        .UnexpectedEndOfInput p, .UnexpectedEndOfInput p], ?_⟩
      simp [Statement.parse, h1, h2, h3, h4, h5, h6]

/-- Witness for C9 at the empty token stream. -/
theorem statement_parse_fails_at_eof_witness :
    ∃ e, Statement.parse 5 ([] : List Token) 0 = .error e :=
  statement_parse_fails_at_eof 5 [] 0 (by decide)

/-- C10: the token stream of "While (true) EndIf" makes the whole statement
parse fail (the shared body loop stops at EndIf and the mandatory EndWhile
check then fails), and every successful While parse consumed the keyword
EndWhile as its last token — so a While body can never terminate at a bare
EndIf, ElseIf or Else. -/
theorem while_requires_endwhile :
    (∃ e, Statement.parse 50 toks_while_endif 0 = .error e)
    ∧ (∀ (fuel : Nat) (ts : List Token) (p : Nat) (s : Statement) (p' : Nat),
        parse_while_statement fuel ts p = .ok (s, p') →
        ts[p' - 1]? = some (.Keyword .EndWhile)) := by
  constructor
  · exact ⟨_, rfl⟩
  · intro fuel ts p s p' h
    cases fuel with
    | zero => simp [parse_while_statement] at h
    | succ n =>
        simp only [parse_while_statement] at h
        split at h
        · cases h
        · split at h
          · cases h
          · split at h
            · cases h
            · rename_i heq
              cases h
              obtain ⟨hget, hp⟩ := expect_keyword_ok heq
              subst hp
              simpa using hget

/-- Witness for C10 at the token stream of "While (true) EndWhile". -/
theorem while_requires_endwhile_witness :
    toks_while_endwhile[4]? = some (.Keyword .EndWhile) :=
  while_requires_endwhile.2 50 toks_while_endwhile 0
    (.While ⟨⟨⟨.Literal (.Boolean true), 1, 4⟩, none⟩, 1, 4⟩) 5 rfl

/-- C4: the token stream of "If (true)" with no terminating EndIf makes the
If production fail with an end-of-input error and the whole statement parse
fail, never succeeding silently; and every successful If parse consumed the
keyword EndIf as its last token, so the trailing EndIf is mandatory. -/
theorem if_requires_endif :
    (∃ e, parse_if_statement 50 toks_if_noend 0 = .error e ∧ e.isEndOfInput = true)
    ∧ (∃ e, Statement.parse 50 toks_if_noend 0 = .error e)
    ∧ (∀ (fuel : Nat) (ts : List Token) (p : Nat) (s : Statement) (p' : Nat),
        parse_if_statement fuel ts p = .ok (s, p') →
        ts[p' - 1]? = some (.Keyword .EndIf)) := by
  refine ⟨⟨_, rfl, rfl⟩, ⟨_, rfl⟩, ?_⟩
  intro fuel ts p s p' h
  cases fuel with
  | zero => simp [parse_if_statement] at h
  | succ n =>
      simp only [parse_if_statement] at h
      split at h
      · cases h
      · split at h
        · cases h
        · split at h
          · cases h
          · split at h
            · cases h
            · rename_i heq
              cases h
              obtain ⟨hget, hp⟩ := expect_keyword_ok heq
              subst hp
              simpa using hget

/-- Witness for C4 at the token stream of "If (true) EndIf". -/
theorem if_requires_endif_witness :
    toks_if_endif[5 - 1]? = some (.Keyword .EndIf) :=
  if_requires_endif.2.2 50 toks_if_endif 0
    (.If ⟨⟨⟨.Literal (.Boolean true), 1, 4⟩, none⟩, 1, 4⟩ none none) 5 rfl

/-- Helper: whenever the statement loop of a conditional path returns
successfully, the token at the final position is one of the four terminator
keywords — the loop can only stop there (at the end of input it attempts a
statement and fails). -/
theorem parse_conditional_path_statements_terminator :
    ∀ (fuel : Nat) (ts : List Token) (p : Nat) (acc l : List (Node Statement)) (p' : Nat),
      parse_conditional_path_statements fuel ts p acc = .ok (l, p') →
      ∃ k, peek_token ts p' = some (.Keyword k) ∧ k ∈ conditional_path_terminators := by
  intro fuel
  induction fuel with
  | zero => intro ts p acc l p' h; simp [parse_conditional_path_statements] at h
  | succ n ih =>
      intro ts p acc l p' h
      simp only [parse_conditional_path_statements] at h
      split at h
      · rename_i heq
        cases h
        exact ⟨.EndIf, heq, by decide⟩
      · rename_i heq
        cases h
        exact ⟨.EndWhile, heq, by decide⟩
      · rename_i heq
        cases h
        exact ⟨.ElseIf, heq, by decide⟩
      · rename_i heq
        cases h
        exact ⟨.Else, heq, by decide⟩
      · split at h
        · cases h
        · exact ih _ _ _ _ _ h

/-- C6: the statement loop of the shared ConditionalPath production — used
by If branches, ElseIf branches and While bodies alike — terminates without
consuming exactly when the next token is one of EndIf, EndWhile, ElseIf,
Else: every successful conditional path ends with the cursor on such a
terminator keyword (left in place for the enclosing production), and when
the next token is such a keyword the loop stops immediately with the cursor
unmoved. -/
theorem conditional_path_terminator :
    (∀ (fuel : Nat) (ts : List Token) (p : Nat) (cp : ConditionalPath) (p' : Nat),
        parse_conditional_path fuel ts p = .ok (cp, p') →
        ∃ k, peek_token ts p' = some (.Keyword k) ∧ k ∈ conditional_path_terminators)
    ∧ (∀ (fuel : Nat) (ts : List Token) (p : Nat) (acc : List (Node Statement)) (k : KeywordKind),
        peek_token ts p = some (.Keyword k) → k ∈ conditional_path_terminators →
        parse_conditional_path_statements (fuel + 1) ts p acc = .ok (acc, p)) := by
  constructor
  · intro fuel ts p cp p' h
    cases fuel with
    | zero => simp [parse_conditional_path] at h
    | succ n =>
        simp only [parse_conditional_path] at h
        split at h
        · cases h
        · split at h
          · cases h
          · rename_i heq
            cases h
            exact parse_conditional_path_statements_terminator n _ _ _ _ _ heq
  · intro fuel ts p acc k hpk hmem
    simp only [conditional_path_terminators, List.mem_cons, List.mem_singleton,
      List.not_mem_nil, or_false] at hmem
    rcases hmem with h | h | h | h <;>
      (subst h; simp [parse_conditional_path_statements, hpk])

/-- Witness for C6 at the conditional path of "(true) EndWhile". -/
theorem conditional_path_terminator_witness :
    ∃ k, peek_token [Token.Operator .ParenthesisOpen, .Keyword .True, .Operator .ParenthesisClose,
        .Keyword .EndWhile] 3 = some (.Keyword k) ∧ k ∈ conditional_path_terminators :=
  conditional_path_terminator.1 50
    [Token.Operator .ParenthesisOpen, .Keyword .True, .Operator .ParenthesisClose,
      .Keyword .EndWhile] 0
    ⟨⟨.Literal (.Boolean true), 0, 3⟩, none⟩ 3 rfl

/-- Helper: a successful parse_node is a successful underlying parse whose
value is wrapped with the consumed token range. -/
theorem parse_node_ok {α : Type} {f : List Token → Nat → ParserResult α} {ts : List Token}
    {p : Nat} {nd : Node α} {p' : Nat} (h : parse_node f ts p = .ok (nd, p')) :
    ∃ v, f ts p = .ok (v, p') ∧ nd = ⟨v, p, p'⟩ := by
  unfold parse_node at h
  split at h
  · cases h
  · rename_i v1 heq
    cases h
    exact ⟨_, heq, rfl⟩

/-- Helper: every statement produced by the Return production satisfies the
canonical-empty invariant. -/
theorem parse_return_statement_canonical {ts : List Token} {p : Nat} {s : Statement} {p' : Nat}
    (h : parse_return_statement ts p = .ok (s, p')) : CanonicalStatement s := by
  unfold parse_return_statement at h
  split at h
  · cases h
  · rcases hq : parse_node_optional parse_expression ts _ with ⟨e, p2⟩
    rw [hq] at h
    cases h
    exact .ret _

/-- Helper: every statement produced by the variable-definition production
satisfies the canonical-empty invariant. -/
theorem parse_define_statement_canonical {ts : List Token} {p : Nat} {s : Statement} {p' : Nat}
    (h : parse_define_statement ts p = .ok (s, p')) : CanonicalStatement s := by
  unfold parse_define_statement at h
  split at h
  · cases h
  · rcases hq : optional define_initial_value ts _ with ⟨iv, p2⟩
    rw [hq] at h
    cases h
    exact .variableDefinition _ _ _

/-- Helper: every statement produced by the Assignment production satisfies
the canonical-empty invariant. -/
theorem parse_assign_statement_canonical {ts : List Token} {p : Nat} {s : Statement} {p' : Nat}
    (h : parse_assign_statement ts p = .ok (s, p')) : CanonicalStatement s := by
  unfold parse_assign_statement at h
  split at h
  · cases h
  · split at h
    · cases h
    · split at h
      · cases h
      · cases h
        exact .assignment _ _ _

/-- Helper: every statement produced by the bare-expression production
satisfies the canonical-empty invariant. -/
theorem parse_expression_statement_canonical {ts : List Token} {p : Nat} {s : Statement}
    {p' : Nat} (h : parse_expression_statement ts p = .ok (s, p')) : CanonicalStatement s := by
  unfold parse_expression_statement at h
  split at h
  · cases h
  · cases h
    exact .expression _

/-- Helper: simultaneous induction over fuel showing that every parser of
the statement family only produces values satisfying the canonical-empty
invariant, with the accumulator-passing loops preserving it. -/
theorem canonical_master : ∀ fuel : Nat,
    (∀ ts p s p', Statement.parse fuel ts p = .ok (s, p') → CanonicalStatement s)
    ∧ (∀ ts p acc l p', parse_conditional_path_statements fuel ts p acc = .ok (l, p') →
        (∀ x ∈ acc, CanonicalStatement x.value) → ∀ x ∈ l, CanonicalStatement x.value)
    ∧ (∀ ts p cp p', parse_conditional_path fuel ts p = .ok (cp, p') → CanonicalPath cp)
    ∧ (∀ ts p k acc l p', parse_node_until_keyword fuel ts p k acc = .ok (l, p') →
        (∀ x ∈ acc, CanonicalStatement x.value) → ∀ x ∈ l, CanonicalStatement x.value)
    ∧ (∀ ts p k ol p', optional_parse_node_until_keyword fuel ts p k = .ok (ol, p') →
        ol ≠ some [] ∧ ∀ l, ol = some l → ∀ x ∈ l, CanonicalStatement x.value)
    ∧ (∀ ts p acc res p', parse_if_chain fuel ts p acc = .ok (res, p') →
        (∀ x ∈ acc, CanonicalPath x.value) →
        (∀ x ∈ res.1, CanonicalPath x.value) ∧ res.2 ≠ some []
          ∧ ∀ l, res.2 = some l → ∀ x ∈ l, CanonicalStatement x.value)
    ∧ (∀ ts p s p', parse_if_statement fuel ts p = .ok (s, p') → CanonicalStatement s)
    ∧ (∀ ts p s p', parse_while_statement fuel ts p = .ok (s, p') → CanonicalStatement s) := by
  intro fuel
  induction fuel with
  | zero =>
      refine ⟨?_, ?_, ?_, ?_, ?_, ?_, ?_, ?_⟩
      · intro ts p s p' h; simp [Statement.parse] at h
      · intro ts p acc l p' h; simp [parse_conditional_path_statements] at h
      · intro ts p cp p' h; simp [parse_conditional_path] at h
      · intro ts p k acc l p' h; simp [parse_node_until_keyword] at h
      · intro ts p k ol p' h; simp [optional_parse_node_until_keyword] at h
      · intro ts p acc res p' h; simp [parse_if_chain] at h
      · intro ts p s p' h; simp [parse_if_statement] at h
      · intro ts p s p' h; simp [parse_while_statement] at h
  | succ n ih =>
      obtain ⟨ihStmt, ihLoop, ihPath, ihUntil, ihOpt, ihChain, ihIf, ihWhile⟩ := ih
      have hLoop : ∀ ts p acc l p',
          parse_conditional_path_statements (n + 1) ts p acc = .ok (l, p') →
          (∀ x ∈ acc, CanonicalStatement x.value) → ∀ x ∈ l, CanonicalStatement x.value := by
        intro ts p acc l p' h hacc
        simp only [parse_conditional_path_statements] at h
        split at h
        · cases h; exact hacc
        · cases h; exact hacc
        · cases h; exact hacc
        · cases h; exact hacc
        · split at h
          · cases h
          · rename_i nd p1 heq
            refine ihLoop _ _ _ _ _ h ?_
            intro x hx
            rcases List.mem_append.1 hx with hx | hx
            · exact hacc x hx
            · obtain ⟨v, hv, hnd⟩ := parse_node_ok heq
              have : x = nd := List.mem_singleton.1 hx
              subst this
              rw [hnd]
              exact ihStmt _ _ _ _ hv
      have hPath : ∀ ts p cp p',
          parse_conditional_path (n + 1) ts p = .ok (cp, p') → CanonicalPath cp := by
        intro ts p cp p' h
        simp only [parse_conditional_path] at h
        split at h
        · cases h
        · split at h
          · cases h
          · rename_i stmts p2 heq
            cases h
            have hcanon : ∀ x ∈ stmts, CanonicalStatement x.value :=
              ihLoop _ _ _ _ _ heq (by intro x hx; cases hx)
            refine .mk _ _ ?_ ?_
            · cases hst : stmts with
              | nil => simp
              | cons a as => simp [hst]
            · intro l hl x hx
              cases hst : stmts with
              | nil => rw [hst] at hl; simp at hl
              | cons a as =>
                  rw [hst] at hl
                  simp at hl
                  rw [← hl, ← hst] at hx
                  exact hcanon x hx
      have hUntil : ∀ ts p k acc l p',
          parse_node_until_keyword (n + 1) ts p k acc = .ok (l, p') →
          (∀ x ∈ acc, CanonicalStatement x.value) → ∀ x ∈ l, CanonicalStatement x.value := by
        intro ts p k acc l p' h hacc
        simp only [parse_node_until_keyword] at h
        split at h
        · cases h; exact hacc
        · split at h
          · cases h; exact hacc
          · split at h
            · cases h
            · rename_i nd p1 heq
              refine ihUntil _ _ _ _ _ _ h ?_
              intro x hx
              rcases List.mem_append.1 hx with hx | hx
              · exact hacc x hx
              · obtain ⟨v, hv, hnd⟩ := parse_node_ok heq
                have : x = nd := List.mem_singleton.1 hx
                subst this
                rw [hnd]
                exact ihStmt _ _ _ _ hv
      have hOpt : ∀ ts p k ol p',
          optional_parse_node_until_keyword (n + 1) ts p k = .ok (ol, p') →
          ol ≠ some [] ∧ ∀ l, ol = some l → ∀ x ∈ l, CanonicalStatement x.value := by
        intro ts p k ol p' h
        simp only [optional_parse_node_until_keyword] at h
        split at h
        · cases h
        · rename_i stmts p1 heq
          cases h
          have hcanon : ∀ x ∈ stmts, CanonicalStatement x.value :=
            ihUntil _ _ _ _ _ _ heq (by intro x hx; cases hx)
          constructor
          · cases hst : stmts with
            | nil => simp
            | cons a as => simp [hst]
          · intro l hl x hx
            cases hst : stmts with
            | nil => rw [hst] at hl; simp at hl
            | cons a as =>
                rw [hst] at hl
                simp at hl
                rw [← hl, ← hst] at hx
                exact hcanon x hx
      have hChain : ∀ ts p acc res p',
          parse_if_chain (n + 1) ts p acc = .ok (res, p') →
          (∀ x ∈ acc, CanonicalPath x.value) →
          (∀ x ∈ res.1, CanonicalPath x.value) ∧ res.2 ≠ some []
            ∧ ∀ l, res.2 = some l → ∀ x ∈ l, CanonicalStatement x.value := by
        intro ts p acc res p' h hacc
        simp only [parse_if_chain] at h
        split at h
        · cases h
          exact ⟨hacc, by simp, by intro l hl; cases hl⟩
        · split at h
          · split at h
            · cases h
            · split at h
              · cases h
              · rename_i path p2 heq
                refine ihChain _ _ _ _ _ h ?_
                intro x hx
                rcases List.mem_append.1 hx with hx | hx
                · exact hacc x hx
                · obtain ⟨v, hv, hnd⟩ := parse_node_ok heq
                  have : x = path := List.mem_singleton.1 hx
                  subst this
                  rw [hnd]
                  exact ihPath _ _ _ _ hv
          · split at h
            · cases h
            · split at h
              · cases h
              · rename_i ep p2 heq
                cases h
                obtain ⟨h1, h2⟩ := ihOpt _ _ _ _ _ heq
                exact ⟨hacc, h1, h2⟩
          · cases h
            exact ⟨hacc, by simp, by intro l hl; cases hl⟩
      have hIf : ∀ ts p s p',
          parse_if_statement (n + 1) ts p = .ok (s, p') → CanonicalStatement s := by
        intro ts p s p' h
        simp only [parse_if_statement] at h
        split at h
        · cases h
        · split at h
          · cases h
          · rename_i ifp p2 heqif
            split at h
            · cases h
            · rename_i chain p3 heqchain
              split at h
              · cases h
              · cases h
                obtain ⟨hother, helse1, helse2⟩ :=
                  ihChain _ _ _ _ _ heqchain (by intro x hx; cases hx)
                obtain ⟨v, hv, hnd⟩ := parse_node_ok heqif
                refine .ifStatement _ _ _ ?_ ?_ helse1 ?_ helse2
                · rw [hnd]
                  exact ihPath _ _ _ _ hv
                · cases hot : chain.1 with
                  | nil => simp
                  | cons a as => simp [hot]
                · intro l hl x hx
                  cases hot : chain.1 with
                  | nil => rw [hot] at hl; simp at hl
                  | cons a as =>
                      rw [hot] at hl
                      simp at hl
                      rw [← hl, ← hot] at hx
                      exact hother x hx
      have hWhile : ∀ ts p s p',
          parse_while_statement (n + 1) ts p = .ok (s, p') → CanonicalStatement s := by
        intro ts p s p' h
        simp only [parse_while_statement] at h
        split at h
        · cases h
        · split at h
          · cases h
          · rename_i cp p2 heq
            split at h
            · cases h
            · cases h
              obtain ⟨v, hv, hnd⟩ := parse_node_ok heq
              refine .whileStatement _ ?_
              rw [hnd]
              exact ihPath _ _ _ _ hv
      have hStmt : ∀ ts p s p',
          Statement.parse (n + 1) ts p = .ok (s, p') → CanonicalStatement s := by
        intro ts p s p' h
        simp only [Statement.parse] at h
        split at h
        · rename_i heq; cases h; exact parse_return_statement_canonical heq
        · split at h
          · rename_i heq; cases h; exact ihIf _ _ _ _ heq
          · split at h
            · rename_i heq; cases h; exact ihWhile _ _ _ _ heq
            · split at h
              · rename_i heq; cases h; exact parse_define_statement_canonical heq
              · split at h
                · rename_i heq; cases h; exact parse_assign_statement_canonical heq
                · split at h
                  · rename_i heq; cases h; exact parse_expression_statement_canonical heq
                  · cases h
      exact ⟨hStmt, hLoop, hPath, hUntil, hOpt, hChain, hIf, hWhile⟩

/-- C3: every Statement and every ConditionalPath produced by a successful
parse satisfies the canonical-empty invariant — a zero-statement body is
represented as absent, never as a present empty sequence, and the same holds
for other_paths and else_path, recursively through the whole produced
tree. -/
theorem canonical_empty_invariant :
    (∀ (fuel : Nat) (ts : List Token) (p : Nat) (s : Statement) (p' : Nat),
        Statement.parse fuel ts p = .ok (s, p') → CanonicalStatement s)
    ∧ (∀ (fuel : Nat) (ts : List Token) (p : Nat) (cp : ConditionalPath) (p' : Nat),
        parse_conditional_path fuel ts p = .ok (cp, p') → CanonicalPath cp) :=
  ⟨fun fuel ts p s p' h => (canonical_master fuel).1 ts p s p' h,
   fun fuel ts p cp p' h => (canonical_master fuel).2.2.1 ts p cp p' h⟩

/-- Witness for C3 at the parse result of
"If (true) ElseIf (true) ElseIf (false) Else EndIf". -/
theorem canonical_empty_invariant_witness :
    CanonicalStatement (.If ⟨⟨⟨.Literal (.Boolean true), 1, 4⟩, none⟩, 1, 4⟩
      (some [⟨⟨⟨.Literal (.Boolean true), 5, 8⟩, none⟩, 5, 8⟩,
             ⟨⟨⟨.Literal (.Boolean false), 9, 12⟩, none⟩, 9, 12⟩]) none) :=
  canonical_empty_invariant.1 50 toks_if_chain 0 _ 14 rfl

end Papyrus
